import Mathlib

/-!
Verification development for the ddelivery SMTP-to-DTN gateway.

The definitions below are a shallow embedding of the Rust sources
(src/smtp.rs, src/mail_sender.rs).  Bytes are modelled as `Nat`
(values below 256), Rust `Vec<u8>` and `String` as `List Nat`
(a Rust `String` is its UTF-8 byte sequence), and fallible code as
`Except` / `Option`.  Stateful iterators are modelled as explicit
state-passing functions; the read side of the TCP stream is supplied
as a list of read results (an oracle), one entry per call to `read`.
-/

namespace DDelivery

/-- Decidable equality for Except, needed to evaluate the embedded
fallible functions on concrete inputs. -/
instance {ε α : Type} [DecidableEq ε] [DecidableEq α] : DecidableEq (Except ε α) := fun x y =>
  match x, y with
  | .ok a, .ok b =>
    if h : a = b then isTrue (by rw [h]) else isFalse (by intro hh; cases hh; exact h rfl)
  | .error a, .error b =>
    if h : a = b then isTrue (by rw [h]) else isFalse (by intro hh; cases hh; exact h rfl)
  | .ok _, .error _ => isFalse (by intro hh; cases hh)
  | .error _, .ok _ => isFalse (by intro hh; cases hh)

/-- Byte sequence of an ASCII string literal (used only for literals
whose characters are all ASCII, matching the byte literals and
format strings of the source). -/
def ascii (s : String) : List Nat := s.data.map Char.toNat

/-- The CRLF line terminator bytes. -/
def crlf : List Nat := [13, 10]

/-- Validity of a byte sequence as UTF-8 (RFC 3629 table), as checked
by Rust String::from_utf8. -/
def utf8Valid : List Nat → Bool
  | [] => true
  | b :: rest =>
    if b < 0x80 then utf8Valid rest
    else if 0xC2 ≤ b && b ≤ 0xDF then
      match rest with
      | c1 :: rest2 => (0x80 ≤ c1 && c1 ≤ 0xBF) && utf8Valid rest2
      | [] => false
    else if b == 0xE0 then
      match rest with
      | c1 :: c2 :: rest2 =>
        (0xA0 ≤ c1 && c1 ≤ 0xBF) && (0x80 ≤ c2 && c2 ≤ 0xBF) && utf8Valid rest2
      | _ => false
    else if (0xE1 ≤ b && b ≤ 0xEC) || b == 0xEE || b == 0xEF then
      match rest with
      | c1 :: c2 :: rest2 =>
        (0x80 ≤ c1 && c1 ≤ 0xBF) && (0x80 ≤ c2 && c2 ≤ 0xBF) && utf8Valid rest2
      | _ => false
    else if b == 0xED then
      match rest with
      | c1 :: c2 :: rest2 =>
        (0x80 ≤ c1 && c1 ≤ 0x9F) && (0x80 ≤ c2 && c2 ≤ 0xBF) && utf8Valid rest2
      | _ => false
    else if b == 0xF0 then
      match rest with
      | c1 :: c2 :: c3 :: rest2 =>
        (0x90 ≤ c1 && c1 ≤ 0xBF) && (0x80 ≤ c2 && c2 ≤ 0xBF) &&
          (0x80 ≤ c3 && c3 ≤ 0xBF) && utf8Valid rest2
      | _ => false
    else if 0xF1 ≤ b && b ≤ 0xF3 then
      match rest with
      | c1 :: c2 :: c3 :: rest2 =>
        (0x80 ≤ c1 && c1 ≤ 0xBF) && (0x80 ≤ c2 && c2 ≤ 0xBF) &&
          (0x80 ≤ c3 && c3 ≤ 0xBF) && utf8Valid rest2
      | _ => false
    else if b == 0xF4 then
      match rest with
      | c1 :: c2 :: c3 :: rest2 =>
        (0x80 ≤ c1 && c1 ≤ 0x8F) && (0x80 ≤ c2 && c2 ≤ 0xBF) &&
          (0x80 ≤ c3 && c3 ≤ 0xBF) && utf8Valid rest2
      | _ => false
    else false

/-- Rust slice splitn(2, sep): split at the first occurrence of sep,
yielding one or two pieces (smtp.rs line 160). -/
def splitn2 (sep : Nat) : List Nat → List (List Nat)
  | [] => [[]]
  | b :: rest =>
    if b = sep then [[], rest]
    else
      match splitn2 sep rest with
      | [] => [[b]]
      | h :: t => (b :: h) :: t

/-- Rust slice split(sep): split at every occurrence of sep
(smtp.rs line 217). -/
def splitAll (sep : Nat) : List Nat → List (List Nat)
  | [] => [[]]
  | b :: rest =>
    match splitAll sep rest with
    | [] => [[]]
    | h :: t => if b = sep then [] :: h :: t else (b :: h) :: t

/-- Rust str::to_ascii_uppercase on the underlying bytes
(smtp.rs line 174). -/
def toAsciiUpper (l : List Nat) : List Nat :=
  l.map fun b => if 97 ≤ b ∧ b ≤ 122 then b - 32 else b

/-- Error type of the address factory (smtp.rs lines 578-586). -/
inductive BadAddressError where
  | badFrame
  | atMissing
  | invalidUtf8String
deriving DecidableEq, Repr

/-- EmailAddress: newtype over the validated textual form
(smtp.rs line 568). -/
structure EmailAddress where
  bytes : List Nat
deriving DecidableEq, Repr

/-- EmailAddress::from_bytes (smtp.rs lines 589-599): requires a
leading 60 and a trailing 62 (angle brackets), an occurrence
of 64 (the at sign), and UTF-8 validity (String::from_utf8). -/
def EmailAddress.from_bytes (source : List Nat) : Except BadAddressError EmailAddress :=
  if source.head? = some 60 ∧ source.getLast? = some 62 then
    if 64 ∈ source then
      if utf8Valid source then .ok ⟨source⟩
      else .error .invalidUtf8String
    else .error .atMissing
  else .error .badFrame

/-- EmailAddress::domain (smtp.rs lines 601-604): the substring after
the first at sign via split_once, with the final byte removed.  The
source unwraps split_once, which panics when no at sign is present;
the factory guarantees one, and in that impossible case this model
returns []. -/
def EmailAddress.domain (a : EmailAddress) : List Nat :=
  ((a.bytes.dropWhile fun b => b ≠ 64).tail).dropLast

/-- ClientCommand (smtp.rs lines 139-151). -/
inductive ClientCommand where
  | hello (domain : List Nat)
  | mail (f : EmailAddress)
  | recipient (r : EmailAddress)
  | data
  | mailInput (content : List Nat)
  | quit
  | reset
  | verify (s : List Nat)
  | expand (s : List Nat)
  | help (s : Option (List Nat))
  | noop (s : Option (List Nat))
deriving DecidableEq, Repr

/-- ClientCommandParseError (smtp.rs lines 292-314). -/
inductive ClientCommandParseError where
  | badEol
  | missingCommand
  | missingDomain
  | syntaxInvalid
  | invalidCommandCharacter
  | invalidCharacter
  | invalidCommand (verb : List Nat)
  | missingParameter
  | invalidRecipient (e : BadAddressError)
  | invalidFrom (e : BadAddressError)
deriving DecidableEq, Repr

/-- The body of ClientCommand::from_bytes (smtp.rs lines 156-289)
after the initial two-byte slice: CRLF check, verb/argument split at
the first space, verb UTF-8 and ASCII checks, uppercase
normalisation, and the per-verb dispatch.  Every slice operation in
this body is in bounds once the input has at least two bytes. -/
def ClientCommand.from_bytesAux (bytes : List Nat) : Except ClientCommandParseError ClientCommand :=
  if bytes.drop (bytes.length - 2) ≠ [13, 10] then .error .badEol
  else
    match splitn2 32 (bytes.take (bytes.length - 2)) with
    | [] => .error .missingCommand
    | command_bytes :: rest =>
      if utf8Valid command_bytes = false then .error .invalidCommandCharacter
      else if command_bytes.all (fun b => b < 128) = false then .error .invalidCommandCharacter
      else
        let cmd := toAsciiUpper command_bytes
        if cmd = ascii "EHLO" then
          match rest with
          | [] => .error .missingDomain
          | domain :: _ =>
            if utf8Valid domain then .ok (.hello domain) else .error .invalidCharacter
        else if cmd = ascii "MAIL" then
          match rest with
          | [] => .error .missingDomain
          | params :: _ =>
            if (ascii "FROM:").isPrefixOf params then
              match EmailAddress.from_bytes
                  (((params.drop 5).takeWhile fun b => b ≠ 62) ++ [62]) with
              | .ok f => .ok (.mail f)
              | .error e => .error (.invalidFrom e)
            else .error .syntaxInvalid
        else if cmd = ascii "RCPT" then
          match rest with
          | [] => .error .missingDomain
          | params :: _ =>
            match splitAll 32 params with
            | [] => .error .syntaxInvalid
            | recip :: _ =>
              if (ascii "TO:").isPrefixOf recip then
                match EmailAddress.from_bytes (recip.drop 3) with
                | .ok r => .ok (.recipient r)
                | .error e => .error (.invalidRecipient e)
              else .error .syntaxInvalid
        else if cmd = ascii "DATA" then .ok .data
        else if cmd = ascii "QUIT" then .ok .quit
        else if cmd = ascii "RSET" then .ok .reset
        else if cmd = ascii "VRFY" then
          match rest with
          | [] => .error .missingParameter
          | s :: _ => if utf8Valid s then .ok (.verify s) else .error .invalidCharacter
        else if cmd = ascii "EXPN" then
          match rest with
          | [] => .error .missingParameter
          | s :: _ => if utf8Valid s then .ok (.expand s) else .error .invalidCharacter
        else if cmd = ascii "HELP" then
          match rest with
          | [] => .ok (.help none)
          | s :: _ => if utf8Valid s then .ok (.help (some s)) else .error .invalidCharacter
        else if cmd = ascii "NOOP" then
          match rest with
          | [] => .ok (.noop none)
          | s :: _ => if utf8Valid s then .ok (.noop (some s)) else .error .invalidCharacter
        else .error (.invalidCommand cmd)

/-- ClientCommand::from_bytes (smtp.rs line 154).  The first statement
indexes bytes[bytes.len()-2..]; for inputs of fewer than two bytes the
subtraction underflows and the indexing panics, modelled as none. -/
def ClientCommand.from_bytes (bytes : List Nat) :
    Option (Except ClientCommandParseError ClientCommand) :=
  if bytes.length < 2 then none
  else some (ClientCommand.from_bytesAux bytes)

/-- ServerCommand (smtp.rs lines 317-335). -/
inductive ServerCommand where
  | openingMessage (domain : List Nat)
  | helloOk (domain : List Nat) (greet : Option (List Nat)) (extensions : List (List Nat))
  | senderOk
  | recipientOk
  | noopOk
  | resetOk
  | startMailInput
  | mailOk
  | closingConnection
  | syntaxError
  | commandUnrecognized
  | commandNotImplemented
  | badSequenceOfCommand (text : List Nat)
deriving DecidableEq, Repr

/-- Rust Vec::join with a separator, as used on the reply lines of
HelloOk (smtp.rs line 363). -/
def joinBytes (sep : List Nat) : List (List Nat) → List Nat
  | [] => []
  | [x] => x
  | x :: y :: t => x ++ sep ++ joinBytes sep (y :: t)

/-- Iterator enumerate().map(f), carrying the running index
(smtp.rs lines 356-362). -/
def mapWithIndex (f : Nat → List Nat → List Nat) : Nat → List (List Nat) → List (List Nat)
  | _, [] => []
  | i, x :: t => f i x :: mapWithIndex f (i + 1) t

/-- ServerCommand::into_bytes (smtp.rs lines 338-400): the exact
on-the-wire byte sequence of each reply. -/
def ServerCommand.into_bytes : ServerCommand → List Nat
  | .openingMessage domain => ascii "220 " ++ domain ++ ascii " Service ready" ++ crlf
  | .helloOk domain greet extensions =>
    let line1 := match greet with
      | some g => domain ++ ascii " " ++ g
      | none => domain
    let lines := line1 :: extensions
    let size := lines.length
    joinBytes crlf (mapWithIndex
      (fun i it => if i < size - 1 then ascii "250-" ++ it else ascii "250 " ++ it) 0 lines)
      ++ crlf
  | .senderOk => ascii "250 Sender Ok" ++ crlf
  | .recipientOk => ascii "250 Recipient Ok" ++ crlf
  | .startMailInput => ascii "354  Start mail input; end with <CRLF>.<CRLF>" ++ crlf
  | .mailOk => ascii "250 Mail Ok" ++ crlf
  | .closingConnection => ascii "221 Closing connection" ++ crlf
  | .syntaxError => ascii "501 Syntax error" ++ crlf
  | .commandNotImplemented => ascii "502 Not implemented" ++ crlf
  | .commandUnrecognized => ascii "500 Command unrecognized" ++ crlf
  | .badSequenceOfCommand text => ascii "503 Bad sequence of command. " ++ text ++ crlf
  | .noopOk => ascii "250 OK" ++ crlf
  | .resetOk => ascii "250 OK" ++ crlf

/-- Opaque model of std::io::Error. -/
structure IoError where
  code : Nat
deriving DecidableEq, Repr

/-- SmtpError (smtp.rs lines 129-135). -/
inductive SmtpError where
  | io (e : IoError)
  | command (e : ClientCommandParseError)
deriving DecidableEq, Repr

/-- The line scan of CommandIter::next (smtp.rs lines 63-80): walk the
buffer with a cr flag; when the flag is set and the byte is 10 the
line ends there; otherwise the flag becomes true exactly when it was
not already set and the byte is 13 (when the flag was set and the
byte is not 10, the source clears the flag without re-examining the
byte).  Returns the drained line (terminator included) and the bytes
remaining in the buffer, mirroring drain(0..pos+1). -/
def splitLineAux (cr : Bool) : List Nat → Option (List Nat × List Nat)
  | [] => none
  | b :: rest =>
    if cr && b == 10 then some ([b], rest)
    else
      match splitLineAux (!cr && b == 13) rest with
      | none => none
      | some (line, after) => some (b :: line, after)

/-- Buffered complete line, if any (smtp.rs lines 63-80, starting with
the cr flag unset). -/
def splitLine (buffer : List Nat) : Option (List Nat × List Nat) :=
  splitLineAux false buffer

/-- Dot-unstuffing of one DATA-mode line (smtp.rs lines 89-91): when
the line starts with byte 46 its first byte is removed. -/
def dotUnstuff (line : List Nat) : List Nat :=
  if line.head? = some 46 then line.tail else line

/-- The matches!(command, ClientCommand::Data) test
(smtp.rs line 102). -/
def isDataCommand : ClientCommand → Bool
  | .data => true
  | _ => false

/-- CommandIter state (smtp.rs lines 47-51): the DATA-mode flag and
the carry buffer.  The TCP source is modelled by the read oracle
passed to next. -/
structure CommandIter where
  data : Bool
  buffer : List Nat
deriving DecidableEq, Repr

/-- One result of TcpStream::read: an I/O error or a chunk of bytes
(the empty chunk is end of stream). -/
abbrev ReadResult := Except IoError (List Nat)

theorem splitLineAux_after_lt (cr : Bool) :
    ∀ (l line after : List Nat), splitLineAux cr l = some (line, after) →
      after.length < l.length := by
  intro l
  induction l generalizing cr with
  | nil => intro line after h; simp [splitLineAux] at h
  | cons b rest ih =>
    intro line after h
    simp only [splitLineAux] at h
    by_cases hcr : (cr && b == 10) = true
    · simp [hcr] at h
      obtain ⟨h1, h2⟩ := h
      subst h2
      simp
    · simp [hcr] at h
      cases hrec : splitLineAux (!cr && b == 13) rest with
      | none => simp [hrec] at h
      | some p =>
        simp [hrec] at h
        obtain ⟨h1, h2⟩ := h
        subst h2
        have := ih (!cr && b == 13) p.1 p.2 hrec
        simp
        omega

theorem splitLine_after_lt (buffer line after : List Nat)
    (h : splitLine buffer = some (line, after)) : after.length < buffer.length :=
  splitLineAux_after_lt false buffer line after h

/-- CommandIter::next (smtp.rs lines 56-126), as a function of the
iterator state, the pending read results and the DATA payload
accumulated so far in this call (buffered_data, initially []).
Returns the yielded item (none models iterator exhaustion), the
iterator state after the call, and the reads left unconsumed.
Write failures do not occur in the source here; parse errors are
returned without ending the iteration, and a read error is returned
as Io.  An empty read (byte_red == 0, or an exhausted oracle) sets
ended and the call returns None with the partial buffer retained
and the accumulated DATA payload discarded. -/
def CommandIter.next (st : CommandIter) (reads : List ReadResult) (buffered_data : List Nat) :
    Option (Except SmtpError ClientCommand) × CommandIter × List ReadResult :=
  match hline : splitLine st.buffer with
  | some (line, rest) =>
    if st.data then
      if line = [46, 13, 10] then
        (some (.ok (.mailInput buffered_data)), ⟨false, rest⟩, reads)
      else
        CommandIter.next ⟨true, rest⟩ reads (buffered_data ++ dotUnstuff line)
    else
      match ClientCommand.from_bytesAux line with
      | .error e => (some (.error (.command e)), ⟨st.data, rest⟩, reads)
      | .ok cmd => (some (.ok cmd), ⟨isDataCommand cmd, rest⟩, reads)
  | none =>
    match reads with
    | [] => (none, st, [])
    | .error e :: restReads => (some (.error (.io e)), st, restReads)
    | .ok chunk :: restReads =>
      if chunk = [] then (none, st, restReads)
      else CommandIter.next ⟨st.data, st.buffer ++ chunk⟩ restReads buffered_data
termination_by (reads.length, st.buffer.length)
decreasing_by
  · exact Prod.Lex.right reads.length (splitLine_after_lt st.buffer line rest hline)
  · exact Prod.Lex.left _ _ (by simp)

/-- Mail (smtp.rs lines 607-612); the field name receipients follows
the source. -/
structure Mail where
  from_address : EmailAddress
  receipients : List EmailAddress
  content : List Nat
deriving DecidableEq, Repr

/-- Mail::new (smtp.rs lines 614-617). -/
def Mail.new (from_address : EmailAddress) : Mail :=
  ⟨from_address, [], []⟩

/-- Greeting string of the HelloOk reply (smtp.rs line 432). -/
def greetText : List Nat := ascii "delayed greetings !"

/-- The single advertised extension (smtp.rs line 434). -/
def extension8BitMime : List Nat := ascii "8BITMIME"

/-- 503 text for a missing transaction (smtp.rs lines 465, 488). -/
def noMailText : List Nat := ascii "No mail sequence. Begin with a MAIL command"

/-- 503 text for a duplicate MAIL command (smtp.rs line 443). -/
def alreadyStartedText : List Nat := ascii "Mail sequence already started"

/-- One call of MailReceiver::next (smtp.rs lines 422-564) over the
sequence of command results produced by the inner CommandIter.
current_mail is the local in-progress Mail, None at the start of each
call.  Returns the responses written during the call, in order, and
either the emitted Mail paired with the commands left for later calls
(Some(Ok(mail))) or None when the loop ends by Quit or by exhaustion.
Writes are modelled as always succeeding; an Io command error is only
logged by the source, so it produces no response and iteration
continues. -/
def mailReceiverNext :
    List (Except SmtpError ClientCommand) → Option Mail →
      List ServerCommand × Option (Mail × List (Except SmtpError ClientCommand))
  | [], _ => ([], none)
  | c :: rest, current_mail =>
    match c with
    | .ok (.hello d) =>
      let r := mailReceiverNext rest current_mail
      (.helloOk d (some greetText) [extension8BitMime] :: r.1, r.2)
    | .ok (.mail a) =>
      match current_mail with
      | some _ =>
        let r := mailReceiverNext rest current_mail
        (.badSequenceOfCommand alreadyStartedText :: r.1, r.2)
      | none =>
        let r := mailReceiverNext rest (some (Mail.new a))
        (.senderOk :: r.1, r.2)
    | .ok (.recipient a) =>
      match current_mail with
      | some m =>
        let r := mailReceiverNext rest (some { m with receipients := m.receipients ++ [a] })
        (.recipientOk :: r.1, r.2)
      | none =>
        let r := mailReceiverNext rest none
        (.badSequenceOfCommand noMailText :: r.1, r.2)
    | .ok .data =>
      let r := mailReceiverNext rest current_mail
      (.startMailInput :: r.1, r.2)
    | .ok (.mailInput content) =>
      match current_mail with
      | some m => ([.mailOk], some ({ m with content := content }, rest))
      | none =>
        let r := mailReceiverNext rest none
        (.badSequenceOfCommand noMailText :: r.1, r.2)
    | .ok .quit => ([.closingConnection], none)
    | .ok (.expand _) =>
      let r := mailReceiverNext rest current_mail
      (.commandNotImplemented :: r.1, r.2)
    | .ok (.verify _) =>
      let r := mailReceiverNext rest current_mail
      (.commandNotImplemented :: r.1, r.2)
    | .ok (.noop _) =>
      let r := mailReceiverNext rest current_mail
      (.noopOk :: r.1, r.2)
    | .ok .reset =>
      let r := mailReceiverNext rest none
      (.resetOk :: r.1, r.2)
    | .ok (.help _) =>
      let r := mailReceiverNext rest current_mail
      (.commandNotImplemented :: r.1, r.2)
    | .error (.command e) =>
      let resp := match e with
        | .missingCommand => ServerCommand.commandUnrecognized
        | .invalidCommand _ => ServerCommand.commandUnrecognized
        | _ => ServerCommand.syntaxError
      let r := mailReceiverNext rest current_mail
      (resp :: r.1, r.2)
    | .error (.io _) => mailReceiverNext rest current_mail

/-- Messages of the sender task (mail_sender.rs lines 7-10). -/
inductive SenderMsg where
  | sendMail (m : Mail)
  | shutdownTask
deriving DecidableEq, Repr

/-- One bundle submitted through the DTN agent: destination endpoint
identifier and payload. -/
structure Submission where
  destination : List Nat
  payload : List Nat
deriving DecidableEq, Repr

/-- The destination endpoint identifier built for one recipient
(mail_sender.rs line 20).  The inbox agent identifier comes from the
constant INBOX_AGENT_ID of the defaults module, which is not among
the sources; it is kept as a parameter. -/
def dtnDestination (inboxAgentId : List Nat) (r : EmailAddress) : List Nat :=
  ascii "dtn://" ++ r.domain ++ ascii "/" ++ inboxAgentId

/-- The per-recipient submission loop of run_sender_task
(mail_sender.rs lines 19-27).  oracle k is the outcome send_bundle
returns for the k-th call of the task (true for Ok).  The source
calls expect on the result, which panics on the first Err: the
returned flag is true when the loop panicked, in which case the
remaining recipients are never submitted.  Returns the submissions
attempted, in recipient order. -/
def sendMailLoop (inboxAgentId content : List Nat) (oracle : Nat → Bool) :
    List EmailAddress → Nat → List Submission × Bool
  | [], _ => ([], false)
  | r :: rest, k =>
    let dest := dtnDestination inboxAgentId r
    if oracle k then
      let res := sendMailLoop inboxAgentId content oracle rest (k + 1)
      (⟨dest, content⟩ :: res.1, res.2)
    else ([⟨dest, content⟩], true)

/-- run_sender_task (mail_sender.rs lines 12-31): drain the message
queue; Shutdown breaks the loop; each SendMail submits one bundle per
recipient.  A panic of the submission loop (expect on a failed
send_bundle) unwinds the task: no later message is processed.
Returns all submissions attempted and whether the task panicked. -/
def run_sender_task (inboxAgentId : List Nat) (oracle : Nat → Bool) :
    List SenderMsg → Nat → List Submission × Bool
  | [], _ => ([], false)
  | .shutdownTask :: _, _ => ([], false)
  | .sendMail m :: rest, k =>
    let res := sendMailLoop inboxAgentId m.content oracle m.receipients k
    if res.2 then (res.1, true)
    else
      let res2 := run_sender_task inboxAgentId oracle rest (k + m.receipients.length)
      (res.1 ++ res2.1, res2.2)

/-- First reply line of HelloOk, after the spec: the domain,
optionally suffixed with a space and the greet. -/
def helloLineSpec (d : List Nat) (g : Option (List Nat)) : List Nat :=
  match g with
  | some g0 => d ++ ascii " " ++ g0
  | none => d

/-- Multi-line 250 reply encoding, after the words of the spec: with
N lines, the first N-1 are prefixed 250- and the last 250 followed by
a space, each line ending in CRLF. -/
def encodeReplySpec : List (List Nat) → List Nat
  | [] => crlf
  | [l] => ascii "250 " ++ l ++ crlf
  | l :: l2 :: t => ascii "250-" ++ l ++ crlf ++ encodeReplySpec (l2 :: t)

/-! ## Theorems -/

theorem joinBytes_mapWithIndex (ls : List (List Nat)) :
    ∀ k n, n = k + ls.length →
      joinBytes crlf (mapWithIndex
        (fun i it => if i < n - 1 then ascii "250-" ++ it else ascii "250 " ++ it) k ls)
        ++ crlf = encodeReplySpec ls := by
  induction ls with
  | nil => intro k n _; simp [mapWithIndex, joinBytes, encodeReplySpec]
  | cons l t ih =>
    intro k n h
    cases t with
    | nil =>
      have hlt : ¬ (k < n - 1) := by simp at h; omega
      simp [mapWithIndex, joinBytes, encodeReplySpec, hlt]
    | cons l2 t2 =>
      have hlt : k < n - 1 := by simp at h; omega
      have ihh := ih (k + 1) n (by simp at h ⊢; omega)
      simp only [mapWithIndex, joinBytes, encodeReplySpec, if_pos hlt]
      simp only [mapWithIndex] at ihh
      rw [List.append_assoc, List.append_assoc, List.append_assoc, ihh]
      simp [List.append_assoc]

/-- One-step unfolding of CommandIter::next when the carry buffer
holds a complete line, for any pending reads. -/
theorem next_line_step (st : CommandIter) (reads : List ReadResult) (acc line rest : List Nat)
    (hsplit : splitLine st.buffer = some (line, rest)) :
    CommandIter.next st reads acc =
      if st.data then
        if line = [46, 13, 10] then
          (some (.ok (.mailInput acc)), ⟨false, rest⟩, reads)
        else CommandIter.next ⟨true, rest⟩ reads (acc ++ dotUnstuff line)
      else
        match ClientCommand.from_bytesAux line with
        | .error e => (some (.error (.command e)), ⟨st.data, rest⟩, reads)
        | .ok cmd => (some (.ok cmd), ⟨isDataCommand cmd, rest⟩, reads) := by
  cases reads with
  | nil =>
    rw [CommandIter.next.eq_1]
    split
    · rename_i line2 rest2 heq
      rw [hsplit] at heq
      simp at heq
      obtain ⟨rfl, rfl⟩ := heq
      rfl
    · rename_i heq
      rw [hsplit] at heq
      simp at heq
  | cons r rs =>
    cases r with
    | error e =>
      rw [CommandIter.next.eq_2]
      split
      · rename_i line2 rest2 heq
        rw [hsplit] at heq
        simp at heq
        obtain ⟨rfl, rfl⟩ := heq
        rfl
      · rename_i heq
        rw [hsplit] at heq
        simp at heq
    | ok chunk =>
      rw [CommandIter.next.eq_3]
      split
      · rename_i line2 rest2 heq
        rw [hsplit] at heq
        simp at heq
        obtain ⟨rfl, rfl⟩ := heq
        rfl
      · rename_i heq
        rw [hsplit] at heq
        simp at heq

/-- One-step unfolding of CommandIter::next when the carry buffer
holds no complete line and the next read fails: the Io error is
yielded, the state and the remaining reads are untouched. -/
theorem next_io_step (st : CommandIter) (e : IoError) (rs : List ReadResult) (acc : List Nat)
    (hsplit : splitLine st.buffer = none) :
    CommandIter.next st (.error e :: rs) acc = (some (.error (.io e)), st, rs) := by
  rw [CommandIter.next.eq_2]
  split
  · rename_i line2 rest2 heq
    rw [hsplit] at heq
    simp at heq
  · rfl

/-- C8: for every domain d, optional greet g and extensions list E,
the HelloOk encoding is a 250 reply of 1 + |E| lines whose first
lines are prefixed 250- and whose last is prefixed 250 and a space;
line 1 is d, suffixed with a space and g when g is present, the
remaining lines are the extensions in order; with empty E and no
greet the whole encoding is the single line 250 d CRLF. -/
theorem c8_theorem (d : List Nat) (g : Option (List Nat)) (E : List (List Nat)) :
    (ServerCommand.helloOk d g E).into_bytes = encodeReplySpec (helloLineSpec d g :: E)
    ∧ (helloLineSpec d g :: E).length = 1 + E.length
    ∧ (ServerCommand.helloOk d none []).into_bytes = ascii "250 " ++ d ++ crlf := by
  refine ⟨?_, by simp [Nat.add_comm], ?_⟩
  · have h := joinBytes_mapWithIndex (helloLineSpec d g :: E) 0 (helloLineSpec d g :: E).length
      (by simp)
    cases g with
    | none => simpa [ServerCommand.into_bytes, helloLineSpec] using h
    | some g0 => simpa [ServerCommand.into_bytes, helloLineSpec] using h
  · simp [ServerCommand.into_bytes, mapWithIndex, joinBytes]

/-- C1 counterexample: with the commands MAIL FROM, EHLO, RCPT TO in
one call of MailReceiver::next, the replies are SenderOk, HelloOk,
RecipientOk: the RCPT TO after EHLO is answered RecipientOk, not 503,
because the Hello arm leaves the in-progress Mail in place. -/
theorem c1_counterexample :
    mailReceiverNext
      [.ok (.mail ⟨ascii "<a@b>"⟩), .ok (.hello (ascii "x")), .ok (.recipient ⟨ascii "<c@d>"⟩)]
      none
      = ([.senderOk, .helloOk (ascii "x") (some greetText) [extension8BitMime], .recipientOk],
          none) := by
  decide

/-- C1 amended: processing a Hello command sends the HelloOk reply
and leaves the in-progress Mail unchanged (the transaction is not
reset); in particular after MAIL FROM followed by EHLO, a subsequent
RCPT TO receives RecipientOk. -/
theorem c1_theorem :
    (∀ d cmds M, mailReceiverNext (.ok (.hello d) :: cmds) M
      = (.helloOk d (some greetText) [extension8BitMime] :: (mailReceiverNext cmds M).1,
          (mailReceiverNext cmds M).2))
    ∧ (mailReceiverNext
        [.ok (.mail ⟨ascii "<a@b>"⟩), .ok (.hello (ascii "x")),
          .ok (.recipient ⟨ascii "<c@d>"⟩)] none).1.getLast? = some .recipientOk := by
  exact ⟨fun d cmds M => by simp [mailReceiverNext], by decide⟩

/-- C9: a DATA command is answered 354 StartMailInput whatever the
in-progress Mail is; the framer enters DATA mode whenever the parsed
command of a framed line is DATA; and a MailInput arriving with no
in-progress Mail is answered 503 with the no-mail text, emits no
Mail, and leaves the session without an in-progress Mail. -/
theorem c9_theorem :
    (∀ cmds M, mailReceiverNext (.ok .data :: cmds) M
      = (.startMailInput :: (mailReceiverNext cmds M).1, (mailReceiverNext cmds M).2))
    ∧ (∀ buffer reads acc line rest, splitLine buffer = some (line, rest) →
        ClientCommand.from_bytesAux line = .ok .data →
        CommandIter.next ⟨false, buffer⟩ reads acc = (some (.ok .data), ⟨true, rest⟩, reads))
    ∧ (∀ c cmds, mailReceiverNext (.ok (.mailInput c) :: cmds) none
      = (.badSequenceOfCommand noMailText :: (mailReceiverNext cmds none).1,
          (mailReceiverNext cmds none).2)) := by
  refine ⟨fun cmds M => by simp [mailReceiverNext], ?_, fun c cmds => by simp [mailReceiverNext]⟩
  intro buffer reads acc line rest hsplit hparse
  rw [next_line_step ⟨false, buffer⟩ reads acc line rest hsplit]
  simp [hparse, isDataCommand]

/-- C9 witness: a concrete DATA line in the buffer yields the Data
command and switches the framer into DATA mode. -/
theorem c9_witness :
    CommandIter.next ⟨false, ascii "DATA" ++ crlf⟩ [] []
      = (some (.ok .data), ⟨true, []⟩, []) :=
  c9_theorem.2.1 (ascii "DATA" ++ crlf) [] [] (ascii "DATA" ++ crlf) []
    (by decide) (by decide)

/-- C10: ClientCommand::from_bytes panics (modelled none) on every
input of fewer than two bytes, from the unchecked slice
bytes[bytes.len()-2..]; on every input of at least two bytes it
returns the result of the total parsing body. -/
theorem c10_theorem (bytes : List Nat) :
    (bytes.length < 2 → ClientCommand.from_bytes bytes = none)
    ∧ (2 ≤ bytes.length →
        ClientCommand.from_bytes bytes = some (ClientCommand.from_bytesAux bytes)) := by
  constructor
  · intro h; simp [ClientCommand.from_bytes, h]
  · intro h; simp [ClientCommand.from_bytes]; omega

/-- C10 witness: a one-byte input panics, a two-byte input returns a
parse result. -/
theorem c10_witness :
    ClientCommand.from_bytes [13] = none
    ∧ ClientCommand.from_bytes [13, 10] = some (ClientCommand.from_bytesAux [13, 10]) :=
  ⟨(c10_theorem [13]).1 (by decide), (c10_theorem [13, 10]).2 (by decide)⟩

/-- C2: at the byte stream CR CR LF the line scan of the framer finds
no terminator, because the scan clears its cr flag at the second CR
without re-arming it, so the LF is not recognised even though it is
immediately preceded by a CR; the framer then reaches end of stream
with the three bytes pending as a partial line and emits nothing. -/
theorem c2_theorem :
    splitLine [13, 13, 10] = none
    ∧ CommandIter.next ⟨false, []⟩ [.ok [13, 13, 10]] []
        = (none, ⟨false, [13, 13, 10]⟩, []) := by
  constructor
  · decide
  · simp [CommandIter.next, splitLine, splitLineAux]

/-- C3: in DATA mode a framed line equal to the lone-dot line ends the
payload, which is emitted as MailInput without the terminator line;
any other framed line is appended after dot-unstuffing, which removes
exactly the first byte when the line begins with a dot and keeps the
trailing CRLF; the double-dot line contributes the single-dot line to
the payload. -/
theorem c3_theorem :
    (∀ buffer reads acc rest, splitLine buffer = some ([46, 13, 10], rest) →
      CommandIter.next ⟨true, buffer⟩ reads acc
        = (some (.ok (.mailInput acc)), ⟨false, rest⟩, reads))
    ∧ (∀ buffer reads acc line rest, splitLine buffer = some (line, rest) →
        line ≠ [46, 13, 10] →
        CommandIter.next ⟨true, buffer⟩ reads acc
          = CommandIter.next ⟨true, rest⟩ reads (acc ++ dotUnstuff line))
    ∧ (∀ s, dotUnstuff (46 :: s) = s)
    ∧ (∀ s, ∃ s2, dotUnstuff (s ++ crlf) = s2 ++ crlf)
    ∧ (dotUnstuff (ascii "..line" ++ crlf) = ascii ".line" ++ crlf
        ∧ ascii "..line" ++ crlf ≠ [46, 13, 10]) := by
  refine ⟨?_, ?_, ?_, ?_, by decide⟩
  · intro buffer reads acc rest h
    rw [next_line_step ⟨true, buffer⟩ reads acc _ rest h]
    simp
  · intro buffer reads acc line rest h hne
    rw [next_line_step ⟨true, buffer⟩ reads acc line rest h]
    simp [hne]
  · intro s; simp [dotUnstuff]
  · intro s
    cases s with
    | nil => exact ⟨[], by decide⟩
    | cons b t =>
      by_cases hb : b = 46
      · subst hb; exact ⟨t, by simp [dotUnstuff]⟩
      · exact ⟨b :: t, by simp [dotUnstuff, hb]⟩

/-- C3 witness: the terminator line emits the accumulated payload,
and a double-dot line is appended unstuffed. -/
theorem c3_witness :
    CommandIter.next ⟨true, [46, 13, 10]⟩ [] (ascii "hi")
      = (some (.ok (.mailInput (ascii "hi"))), ⟨false, []⟩, [])
    ∧ CommandIter.next ⟨true, ascii "..line" ++ crlf ++ [46, 13, 10]⟩ [] []
      = CommandIter.next ⟨true, [46, 13, 10]⟩ [] ([] ++ dotUnstuff (ascii "..line" ++ crlf)) :=
  ⟨c3_theorem.1 [46, 13, 10] [] (ascii "hi") [] (by decide),
    c3_theorem.2.1 (ascii "..line" ++ crlf ++ [46, 13, 10]) [] []
      (ascii "..line" ++ crlf) [46, 13, 10] (by decide) (by decide)⟩

/-- C6 counterexample: a read failure is yielded as Io, but the very
next call of the iterator reads on and yields a further element (the
NOOP command), so the sequence does not terminate at the Io error. -/
theorem c6_counterexample :
    CommandIter.next ⟨false, []⟩ [.error ⟨0⟩, .ok (ascii "NOOP" ++ crlf)] []
      = (some (.error (.io ⟨0⟩)), ⟨false, []⟩, [.ok (ascii "NOOP" ++ crlf)])
    ∧ CommandIter.next ⟨false, []⟩ [.ok (ascii "NOOP" ++ crlf)] []
      = (some (.ok (.noop none)), ⟨false, []⟩, []) := by
  constructor
  · simp [CommandIter.next, splitLine, splitLineAux]
  · simp [CommandIter.next, splitLine, splitLineAux]
    decide

/-- C6 amended: a failing read surfaces as the Io variant with the
iterator state and remaining input untouched, so iteration can
continue and produce further elements; the session loop only logs an
Io error and continues with the next command result. -/
theorem c6_theorem :
    (∀ st e rs acc, splitLine st.buffer = none →
      CommandIter.next st (.error e :: rs) acc = (some (.error (.io e)), st, rs))
    ∧ (∀ cmds M e, mailReceiverNext (.error (.io e) :: cmds) M = mailReceiverNext cmds M) :=
  ⟨fun st e rs acc h => next_io_step st e rs acc h,
    fun cmds M e => by simp [mailReceiverNext]⟩

/-- C6 witness: the Io step at a concrete state and error. -/
theorem c6_witness :
    CommandIter.next ⟨false, []⟩ [.error ⟨7⟩] [] = (some (.error (.io ⟨7⟩)), ⟨false, []⟩, []) :=
  c6_theorem.1 ⟨false, []⟩ ⟨7⟩ [] [] (by decide)

theorem sendMailLoop_all_ok (inboxAgentId content : List Nat) (oracle : Nat → Bool)
    (hok : ∀ i, oracle i = true) :
    ∀ (rs : List EmailAddress) (k : Nat),
      sendMailLoop inboxAgentId content oracle rs k
        = (rs.map fun r => ⟨dtnDestination inboxAgentId r, content⟩, false) := by
  intro rs
  induction rs with
  | nil => intro k; simp [sendMailLoop]
  | cons r t ih => intro k; simp [sendMailLoop, hok k, ih (k + 1)]

/-- C7 counterexample: with a failing DTN agent, a mail with two
recipients leads to a single submission; the expect panic aborts the
second recipient and the whole task, so the second queued mail is
never submitted either. -/
theorem c7_counterexample :
    run_sender_task (ascii "inbox") (fun _ => false)
      [.sendMail ⟨⟨ascii "<a@b>"⟩, [⟨ascii "<c@d>"⟩, ⟨ascii "<e@f>"⟩], ascii "hi"⟩,
        .sendMail ⟨⟨ascii "<a@b>"⟩, [⟨ascii "<g@h>"⟩], ascii "yo"⟩] 0
      = ([⟨ascii "dtn://d/inbox", ascii "hi"⟩], true) := by
  decide

/-- C7 amended: as long as every send_bundle call succeeds, the sender
task performs one submission per recipient, in recipient order, to
dtn://<recipient-domain>/<inbox-agent-id> with the mail content as
payload; a failing submission panics through expect, which aborts the
remaining recipients of that mail and terminates the sender task. -/
theorem c7_theorem (inboxAgentId content : List Nat) (oracle : Nat → Bool) (k : Nat) :
    (∀ rs, (∀ i, oracle i = true) →
      sendMailLoop inboxAgentId content oracle rs k
        = (rs.map fun r => ⟨dtnDestination inboxAgentId r, content⟩, false))
    ∧ (∀ r rest, oracle k = false →
        sendMailLoop inboxAgentId content oracle (r :: rest) k
          = ([⟨dtnDestination inboxAgentId r, content⟩], true))
    ∧ (∀ m rest, (sendMailLoop inboxAgentId m.content oracle m.receipients k).2 = true →
        run_sender_task inboxAgentId oracle (.sendMail m :: rest) k
          = ((sendMailLoop inboxAgentId m.content oracle m.receipients k).1, true)) := by
  refine ⟨fun rs hok => sendMailLoop_all_ok inboxAgentId content oracle hok rs k, ?_, ?_⟩
  · intro r rest hfail
    simp [sendMailLoop, hfail]
  · intro m rest hp
    simp [run_sender_task, hp]

/-- C7 witness: the success case submits both recipients in order,
the failure case stops at the first. -/
theorem c7_witness :
    sendMailLoop (ascii "inbox") (ascii "hi") (fun _ => true)
        [⟨ascii "<c@d>"⟩, ⟨ascii "<e@f>"⟩] 0
      = ([⟨ascii "dtn://d/inbox", ascii "hi"⟩, ⟨ascii "dtn://f/inbox", ascii "hi"⟩], false)
    ∧ sendMailLoop (ascii "inbox") (ascii "hi") (fun _ => false)
        [⟨ascii "<c@d>"⟩, ⟨ascii "<e@f>"⟩] 0
      = ([⟨ascii "dtn://d/inbox", ascii "hi"⟩], true) := by
  constructor
  · have h := (c7_theorem (ascii "inbox") (ascii "hi") (fun _ => true) 0).1
      [⟨ascii "<c@d>"⟩, ⟨ascii "<e@f>"⟩] (fun _ => rfl)
    rw [h]; decide
  · have h := (c7_theorem (ascii "inbox") (ascii "hi") (fun _ => false) 0).2.1
      ⟨ascii "<c@d>"⟩ [⟨ascii "<e@f>"⟩] rfl
    rw [h]; decide

theorem exists_first_at (l : List Nat) (h : 64 ∈ l) :
    ∃ pre suf, 64 ∉ pre ∧ l = pre ++ 64 :: suf
      ∧ (l.dropWhile fun b => b ≠ 64) = 64 :: suf := by
  induction l with
  | nil => cases h
  | cons b t ih =>
    by_cases hb : b = 64
    · subst hb
      exact ⟨[], t, by simp, by simp, by simp [List.dropWhile]⟩
    · have ht : 64 ∈ t := by
        rcases List.mem_cons.mp h with h1 | h2
        · exact absurd h1.symm hb
        · exact h2
      obtain ⟨pre, suf, h1, h2, h3⟩ := ih ht
      refine ⟨b :: pre, suf, ?_, by simp [h2], by simpa [List.dropWhile_cons, hb] using h3⟩
      intro hmem
      rcases List.mem_cons.mp hmem with hm | hm
      · exact hb hm.symm
      · exact h1 hm

/-- C4 counterexample: the factory accepts a byte string with two at
signs (so the stored string does not contain exactly one), and it
rejects a non-UTF-8 buffer that starts with an opening bracket, ends
with a closing bracket and contains an at sign (so success is not
equivalent to those three conditions alone). -/
theorem c4_counterexample :
    (EmailAddress.from_bytes (ascii "<a@@b>") = .ok ⟨ascii "<a@@b>"⟩
      ∧ (ascii "<a@@b>").count 64 = 2)
    ∧ (EmailAddress.from_bytes [60, 255, 64, 62] = .error .invalidUtf8String
        ∧ [60, 255, 64, 62].head? = some 60 ∧ [60, 255, 64, 62].getLast? = some 62
        ∧ 64 ∈ [60, 255, 64, 62]) := by
  decide

/-- C4 amended: from_bytes succeeds exactly when the buffer starts
with an opening angle bracket, ends with a closing angle bracket,
contains an at sign and is valid UTF-8; every constructed Address
stores the buffer unchanged, contains at least one at sign, and its
domain is the substring strictly between the first at sign and the
trailing closing bracket. -/
theorem c4_theorem (buf : List Nat) :
    ((∃ a, EmailAddress.from_bytes buf = .ok a)
      ↔ (buf.head? = some 60 ∧ buf.getLast? = some 62 ∧ 64 ∈ buf ∧ utf8Valid buf = true))
    ∧ (∀ a, EmailAddress.from_bytes buf = .ok a →
        a.bytes = buf ∧ 64 ∈ a.bytes
        ∧ ∃ pre, 64 ∉ pre ∧ a.bytes = pre ++ 64 :: (a.domain ++ [62])) := by
  constructor
  · constructor
    · rintro ⟨a, ha⟩
      unfold EmailAddress.from_bytes at ha
      split_ifs at ha with h1 h2 h3
      exact ⟨h1.1, h1.2, h2, h3⟩
    · rintro ⟨h1, h2, h3, h4⟩
      exact ⟨⟨buf⟩, by simp [EmailAddress.from_bytes, h1, h2, h3, h4]⟩
  · intro a ha
    have hcond : buf.head? = some 60 ∧ buf.getLast? = some 62 ∧ 64 ∈ buf
        ∧ utf8Valid buf = true := by
      unfold EmailAddress.from_bytes at ha
      split_ifs at ha with h1 h2 h3
      exact ⟨h1.1, h1.2, h2, h3⟩
    have habytes : a.bytes = buf := by
      unfold EmailAddress.from_bytes at ha
      split_ifs at ha
      cases ha
      rfl
    obtain ⟨pre, suf, hp1, hp2, hp3⟩ := exists_first_at buf hcond.2.2.1
    have hsufne : suf ≠ [] := by
      intro hnil
      subst hnil
      have : buf.getLast? = some 64 := by
        rw [hp2, List.getLast?_append_cons]
        rfl
      rw [hcond.2.1] at this
      simp at this
    have hlast : suf.getLast? = some 62 := by
      have h1 : buf.getLast? = (64 :: suf).getLast? := by
        rw [hp2, List.getLast?_append_cons]
      cases suf with
      | nil => exact absurd rfl hsufne
      | cons s1 s2 =>
        rw [List.getLast?_cons_cons] at h1
        rw [← h1, hcond.2.1]
    have hsufsplit : suf.dropLast ++ [62] = suf :=
      List.dropLast_append_getLast? 62 (by simpa using hlast)
    have hdomain : a.domain = suf.dropLast := by
      unfold EmailAddress.domain
      rw [habytes, hp3]
      simp
    refine ⟨habytes, by rw [habytes]; exact hcond.2.2.1, pre, hp1, ?_⟩
    rw [habytes, hdomain, hsufsplit]
    exact hp2

/-- C4 witness: a concrete valid address is accepted and decomposes
around its at sign into local part, domain and trailing bracket. -/
theorem c4_witness :
    (∃ a, EmailAddress.from_bytes (ascii "<a@b>") = .ok a)
    ∧ ∃ pre, 64 ∉ pre
        ∧ ascii "<a@b>" = pre ++ 64 :: (EmailAddress.domain ⟨ascii "<a@b>"⟩ ++ [62]) := by
  have h1 := (c4_theorem (ascii "<a@b>")).1.mpr (by decide)
  refine ⟨h1, ?_⟩
  obtain ⟨a, ha⟩ := h1
  have h2 := (c4_theorem (ascii "<a@b>")).2 a ha
  obtain ⟨hb, _, pre, hp1, hp2⟩ := h2
  cases a with
  | mk bs =>
    simp only at hb
    subst hb
    exact ⟨pre, hp1, hp2⟩

theorem takeWhile_stop_at62 (l r : List Nat) (h : 62 ∉ l) :
    ((l ++ 62 :: r).takeWhile fun b => b ≠ 62) = l := by
  induction l with
  | nil => simp [List.takeWhile_cons]
  | cons b t ih =>
    have hb : b ≠ 62 := fun hh => h (hh ▸ List.mem_cons_self b t)
    have ht : 62 ∉ t := fun hm => h (List.mem_cons_of_mem b hm)
    simpa [List.takeWhile_cons, hb] using ih ht

theorem drop_sub2_append_crlf (A : List Nat) :
    (A ++ crlf).drop ((A ++ crlf).length - 2) = crlf := by
  have h : (A ++ crlf).length - 2 = A.length := by simp [crlf]
  rw [h, List.drop_left]

theorem take_sub2_append_crlf (A : List Nat) :
    (A ++ crlf).take ((A ++ crlf).length - 2) = A := by
  have h : (A ++ crlf).length - 2 = A.length := by simp [crlf]
  rw [h, List.take_left]

/-- C5: a MAIL line whose argument starts with FROM: has its address
taken from the bytes after the prefix up to and including the first
closing bracket, the bytes after that bracket up to the CRLF being
ignored; a concrete line with trailing SIZE parameter parses to the
bracketed address, and an argument without bracket framing fails with
InvalidFrom. -/
theorem c5_theorem (addr junk : List Nat) (h : 62 ∉ addr) :
    ClientCommand.from_bytesAux (ascii "MAIL FROM:" ++ addr ++ [62] ++ junk ++ crlf)
      = (match EmailAddress.from_bytes (addr ++ [62]) with
          | .ok f => .ok (.mail f)
          | .error e => .error (.invalidFrom e))
    ∧ ClientCommand.from_bytesAux (ascii "MAIL FROM:<a@b> SIZE=100" ++ crlf)
      = .ok (.mail ⟨ascii "<a@b>"⟩)
    ∧ ClientCommand.from_bytesAux (ascii "MAIL FROM:a@b" ++ crlf)
      = .error (.invalidFrom .badFrame) := by
  refine ⟨?_, by decide, by decide⟩
  have hpre : ascii "MAIL FROM:" = [77, 65, 73, 76, 32, 70, 82, 79, 77, 58] := by decide
  rw [hpre]
  unfold ClientCommand.from_bytesAux
  rw [drop_sub2_append_crlf ([77, 65, 73, 76, 32, 70, 82, 79, 77, 58] ++ addr ++ [62] ++ junk),
    take_sub2_append_crlf ([77, 65, 73, 76, 32, 70, 82, 79, 77, 58] ++ addr ++ [62] ++ junk)]
  have hsplit : splitn2 32 ([77, 65, 73, 76, 32, 70, 82, 79, 77, 58] ++ addr ++ [62] ++ junk)
      = [[77, 65, 73, 76], [70, 82, 79, 77, 58] ++ (addr ++ 62 :: junk)] := by
    simp [splitn2, List.append_assoc]
  rw [hsplit]
  have hE : ascii "EHLO" = [69, 72, 76, 79] := by decide
  have hM : ascii "MAIL" = [77, 65, 73, 76] := by decide
  have hF : ascii "FROM:" = [70, 82, 79, 77, 58] := by decide
  have hu1 : utf8Valid [77, 65, 73, 76] = true := by decide
  have hall : [77, 65, 73, 76].all (fun b => b < 128) = true := by decide
  have hup : toAsciiUpper [77, 65, 73, 76] = [77, 65, 73, 76] := by decide
  have h5 : ([70, 82, 79, 77, 58] ++ (addr ++ 62 :: junk)).drop 5 = addr ++ 62 :: junk := by
    simp
  have hpf : (([70, 82, 79, 77, 58] : List Nat).isPrefixOf
      ([70, 82, 79, 77, 58] ++ (addr ++ 62 :: junk))) = true := by
    simp [List.isPrefixOf]
  have htake := takeWhile_stop_at62 addr junk h
  simp only [hE, hM, hF, hu1, hall, hup, h5, hpf, htake]
  simp
  intro hc
  exact absurd rfl hc

/-- C5 witness: the general MAIL extraction at a concrete address and
trailing parameter bytes. -/
theorem c5_witness :
    ClientCommand.from_bytesAux
        (ascii "MAIL FROM:" ++ ascii "<a@b" ++ [62] ++ ascii " SIZE=100" ++ crlf)
      = .ok (.mail ⟨ascii "<a@b>"⟩) := by
  have h := (c5_theorem (ascii "<a@b") (ascii " SIZE=100") (by decide)).1
  rw [h]
  decide

end DDelivery
